import Mathlib

/-!
Shallow embedding of the remote safetensor access layer
(`gguf-py/gguf/utility.py`, class `SafetensorRemote` and `RemoteTensor`).

External collaborators (the `requests` HTTP library, `urllib.parse.urlparse`,
`json.loads` plus UTF-8 decoding, and `requests.head`) are modelled as an
explicit environment `Env` of oracles; everything else is translated directly
from the Python source.  Byte strings are `List Nat`; Python's unbounded `int`
is `Int` (`Nat` where the source value is necessarily non-negative).
-/

/-- JSON values as produced by `json.loads`. -/
inductive JVal where
  | jnull : JVal
  | jbool : Bool → JVal
  | jnum : Int → JVal
  | jstr : String → JVal
  | jarr : List JVal → JVal
  | jobj : List (String × JVal) → JVal

/-- Result of `urllib.parse.urlparse`: the two components the source inspects. -/
structure ParsedURL where
  scheme : String
  netloc : String
deriving DecidableEq, Repr

/-- An HTTP response as seen through `requests`: status code and body bytes. -/
structure Response where
  status : Nat
  content : List Nat
deriving DecidableEq, Repr

/-- The external world: URL parsing, `requests.get` keyed by URL and the
optional `Range` header `(first, some last)` = `bytes=first-last`,
`(first, none)` = `bytes=first-`; `decode` is UTF-8 decoding followed by
`json.loads` (`none` = decode/parse exception); `head` is `requests.head`
(`Except.error` = `requests.RequestException`). -/
structure Env where
  parse : String → ParsedURL
  server : String → Option (Int × Option Int) → Except Nat Response
  decode : List Nat → Option JVal
  head : String → Except Unit Nat

/-- Every distinct `raise` site / uncaught exception of the source, one
constructor each.  The Python exception class is noted on each constructor. -/
inductive Err where
  /-- Python `ValueError("Invalid URL: ...")` (spec taxonomy: InvalidURL). -/
  | invalidURL (url : String)
  /-- an exception raised by `requests.get` itself (transport failure). -/
  | transport (code : Nat)
  /-- Python `requests.HTTPError` from `response.raise_for_status()`. -/
  | httpError (status : Nat)
  /-- Python `IOError` for a per-chunk size mismatch in the multithread path. -/
  | chunkSizeMismatch (index expected got : Nat)
  /-- Python `IOError` for the final assembled-size check of the multithread path. -/
  | finalSizeMismatch (expected got : Nat)
  /-- Python `IOError` for the single-thread size check. -/
  | sizeMismatch (expected : Int) (got : Nat)
  /-- Python `ValueError("Not enough data to read metadata size")`. -/
  | notEnoughMetadataSize
  /-- Python `ValueError("Could not read complete metadata ...")`. -/
  | incompleteMetadata (need got : Nat)
  /-- Python `UnicodeDecodeError` / `ValueError("Failed to parse safetensor metadata as JSON")`. -/
  | jsonDecodeError
  /-- Python `ValueError("Invalid metadata for tensor ...")` (value is not a dict). -/
  | invalidTensorMeta (name : String)
  /-- Python `ValueError("Missing key in metadata for tensor ...")` (re-raised `KeyError`). -/
  | missingKey (name key : String)
  /-- Python `ValueError` from unpacking `data_offsets` into two variables. -/
  | unpackMismatch
  /-- Python `TypeError` (non-iterable / non-numeric operand). -/
  | typeError
  /-- Python `AssertionError("weight_map not found in index file")`. -/
  | weightMapMissing
  /-- Python `ValueError("Model ... does not have any safetensor files")` (spec: NotFoundError). -/
  | modelNotFound (model_id : String)
deriving DecidableEq, Repr

/-- The spec's §7 taxonomy: which raise sites the spec files under
`FormatError` (malformed / incomplete header or index manifest). -/
def Err.isFormat : Err → Bool
  | .notEnoughMetadataSize | .incompleteMetadata _ _ | .jsonDecodeError
  | .invalidTensorMeta _ | .missingKey _ _ | .unpackMismatch
  | .weightMapMissing => true
  | _ => false

-- Constants of `SafetensorRemote` (source lines 113-118).
def BASE_DOMAIN : String := "https://huggingface.co"
def ALIGNMENT : Nat := 8
def MULTITHREAD_THREDSHOLD : Int := 100 * 1024 * 1024
def MULTITHREAD_COUNT : Nat := 8

/-- The `@dataclass class RemoteTensor` (source lines 79-85).  `dtype` and the
`shape` elements are stored exactly as found in the JSON (the source performs
no validation on them); `size` may be negative, as in the source. -/
structure RemoteTensor where
  dtype : JVal
  shape : List JVal
  offset_start : Int
  size : Int
  url : String

/-- The `Range` header built by the single-threaded path
(source lines 330-337): `bytes=start-(start+size-1)` when `size > -1`,
`bytes=start-` when `size == -1 and start > 0`, no header otherwise. -/
def singleRange (start size : Int) : Option (Int × Option Int) :=
  if size > -1 then some (start, some (start + size - 1))
  else if start > 0 then some (start, none)
  else none

/-- Single-threaded path of `get_data_by_range` (source lines 326-353):
issue one GET, `raise_for_status`, and when a specific size was requested
require the returned byte count to equal it exactly. -/
def singleFetch (env : Env) (url : String) (start size : Int) : Except Err (List Nat) :=
  match env.server url (singleRange start size) with
  | .error code => .error (.transport code)
  | .ok r =>
    if 400 ≤ r.status ∧ r.status < 600 then .error (.httpError r.status)
    else if size > -1 ∧ (r.content.length : Int) ≠ size then
      .error (.sizeMismatch size r.content.length)
    else .ok r.content

/-- The `download_chunk` worker (source lines 251-273): ranged GET with inclusive
end byte, `raise_for_status`, and the critical per-chunk length check; any
exception is stored in the chunk's result slot (here: returned as `.error`). -/
def download_chunk (env : Env) (url : String) (chunk_start : Int) (chunk_size : Nat)
    (index : Nat) : Except Err (List Nat) :=
  match env.server url (some (chunk_start, some (chunk_start + chunk_size - 1))) with
  | .error code => .error (.transport code)
  | .ok r =>
    if 400 ≤ r.status ∧ r.status < 600 then .error (.httpError r.status)
    else if r.content.length ≠ chunk_size then
      .error (.chunkSizeMismatch index chunk_size r.content.length)
    else .ok r.content

/-- The chunk layout computed by the loop of source lines 276-293:
`chunk_size = base + (1 if i < remainder else 0)` and
`current_offset += chunk_size`, yielding the list of
`(chunk_start, chunk_size)` pairs in chunk-index order. -/
def chunkSpecs (base rem : Nat) (offset : Int) (i n : Nat) : List (Int × Nat) :=
  match n with
  | 0 => []
  | n' + 1 =>
    let cs := base + (if i < rem then 1 else 0)
    (offset, cs) :: chunkSpecs base rem (offset + cs) (i + 1) n'

/-- The chunk layout of one multithreaded call:
`base_chunk_size = size // num_threads`, `remainder = size % num_threads`
(source lines 276-277) fed into the offset-accumulating loop. -/
def chunkLayout (start : Int) (sizeN : Nat) : List (Int × Nat) :=
  chunkSpecs (sizeN / MULTITHREAD_COUNT) (sizeN % MULTITHREAD_COUNT) start 0
    MULTITHREAD_COUNT

/-- The result slot of chunk `i` (source lines 280-293): a zero-size chunk
stores `b""` directly without spawning a thread; otherwise the slot receives
the worker's bytes or its exception. -/
def chunkResult (env : Env) (url : String) (start : Int) (sizeN : Nat) (i : Nat) :
    Except Err (List Nat) :=
  let p := (chunkLayout start sizeN).getD i (0, 0)
  if p.2 = 0 then .ok [] else download_chunk env url p.1 p.2 i

/-- The scan of source lines 299-315: walk the result slots in original chunk
order, raising the first stored exception, otherwise collecting the chunk byte
lists in order.  (The `None`-slot branch of the source is unreachable here
because every slot is always filled: the worker catches every exception.) -/
def scanResults : List (Except Err (List Nat)) → Except Err (List (List Nat))
  | [] => .ok []
  | .error e :: _ => .error e
  | .ok c :: rest => (scanResults rest).map (fun parts => c :: parts)

/-- Multithreading path of `get_data_by_range` (source lines 244-324):
compute the chunk layout, run all chunk downloads (all slots are filled before
any is inspected, mirroring the join-all barrier), scan the slots in chunk
order, concatenate, and apply the final assembled-size check. -/
def parallelFetch (env : Env) (url : String) (start : Int) (sizeN : Nat) :
    Except Err (List Nat) :=
  let results := (List.range MULTITHREAD_COUNT).map (chunkResult env url start sizeN)
  match scanResults results with
  | .error e => .error e
  | .ok parts =>
    let final := parts.flatten
    if final.length ≠ sizeN then .error (.finalSizeMismatch sizeN final.length)
    else .ok final

/-- Model of `SafetensorRemote.get_data_by_range` (source lines 229-353): validate the
URL, then choose the multithreading path when
`size >= MULTITHREAD_THREDSHOLD and MULTITHREAD_COUNT > 1`, else the
single-threaded path.  (In the multithread branch `size` is necessarily
positive, so `size.toNat` agrees with the source's integer arithmetic.) -/
def get_data_by_range (env : Env) (url : String) (start : Int) (size : Int) :
    Except Err (List Nat) :=
  let parsed_url := env.parse url
  if parsed_url.scheme = "" ∨ parsed_url.netloc = "" then .error (.invalidURL url)
  else if MULTITHREAD_THREDSHOLD ≤ size ∧ 1 < MULTITHREAD_COUNT then
    parallelFetch env url start size.toNat
  else singleFetch env url start size

/-- Python `int.from_bytes(_, byteorder='little')`. -/
def leBytes : List Nat → Nat
  | [] => 0
  | b :: rest => b + 256 * leBytes rest

/-- The alignment computation of source lines 203-206 applied to a value `x`:
`if x % ALIGNMENT != 0: x += ALIGNMENT - (x % ALIGNMENT)`. -/
def align8 (x : Nat) : Nat :=
  if x % ALIGNMENT ≠ 0 then x + (ALIGNMENT - x % ALIGNMENT) else x

/-- The pure part of `SafetensorRemote.get_metadata` (source lines 196-219),
applied to the fetched prefix `raw`: read the `u64` little-endian length
prefix, compute the aligned data start offset, check the declared metadata
region lies within `raw`, and decode the metadata bytes as UTF-8 JSON. -/
def get_metadata_core (decode : List Nat → Option JVal) (raw : List Nat) :
    Except Err (JVal × Nat) :=
  if raw.length < 8 then .error .notEnoughMetadataSize
  else
    let metadata_length := leBytes (raw.take 8)
    let data_start_offset := align8 (8 + metadata_length)
    if raw.length < 8 + metadata_length then
      .error (.incompleteMetadata (8 + metadata_length) raw.length)
    else
      match decode ((raw.drop 8).take metadata_length) with
      | none => .error .jsonDecodeError
      | some metadata => .ok (metadata, data_start_offset)

/-- Model of `SafetensorRemote.get_metadata` (source lines 185-219): fetch the first
5 MiB of the resource, then parse the header out of it. -/
def get_metadata (env : Env) (url : String) : Except Err (JVal × Nat) := do
  let raw ← get_data_by_range env url 0 (5 * 1024 * 1024)
  get_metadata_core env.decode raw

/-- Python tuple unpacking `a, b = x` on a JSON-derived value: a two-element
list (or two-character string, or two-key dict) unpacks; other iterables of
the wrong length raise `ValueError`, non-iterables raise `TypeError`. -/
def unpack2 : JVal → Except Err (JVal × JVal)
  | .jarr [a, b] => .ok (a, b)
  | .jarr _ => .error .unpackMismatch
  | .jstr s =>
    match s.toList with
    | [a, b] => .ok (.jstr (String.singleton a), .jstr (String.singleton b))
    | _ => .error .unpackMismatch
  | .jobj [p, q] => .ok (.jstr p.1, .jstr q.1)
  | .jobj _ => .error .unpackMismatch
  | _ => .error .typeError

/-- Python `tuple(x)` on a JSON-derived value: lists give their elements,
strings their characters, dicts their keys; other values raise `TypeError`. -/
def pyTuple : JVal → Except Err (List JVal)
  | .jarr xs => .ok xs
  | .jstr s => .ok (s.toList.map (fun c => .jstr (String.singleton c)))
  | .jobj fs => .ok (fs.map (fun p => .jstr p.1))
  | _ => .error .typeError

/-- Python dict assignment `d[k] = v`: overwrite in place when the key is
already bound (keeping its position), append otherwise. -/
def dictInsert {α : Type} (d : List (String × α)) (k : String) (v : α) :
    List (String × α) :=
  if d.any (fun p => p.1 = k) then
    d.map (fun p => if p.1 = k then (k, v) else p)
  else d ++ [(k, v)]

/-- Python dict lookup `d.get(k)` (first binding of `k`). -/
def dictGet {α : Type} (d : List (String × α)) (k : String) : Option α :=
  (d.find? (fun p => p.1 = k)).map (fun p => p.2)

/-- The per-tensor body of the loop in `get_list_tensors`
(source lines 169-181), in the source's evaluation order: the dict check,
the three key accesses (a `KeyError` is re-raised naming the tensor and the
key), tuple-unpacking of `data_offsets`, the size/offset arithmetic, and
`tuple(shape)` evaluated at `RemoteTensor` construction.  No check that the
offsets are ordered is performed. -/
def parseTensorMeta (url : String) (data_start_offset : Nat) (name : String)
    (meta : JVal) : Except Err RemoteTensor :=
  match meta with
  | .jobj fields =>
    match dictGet fields "dtype" with
    | none => .error (.missingKey name "dtype")
    | some dtype =>
      match dictGet fields "shape" with
      | none => .error (.missingKey name "shape")
      | some shapeVal =>
        match dictGet fields "data_offsets" with
        | none => .error (.missingKey name "data_offsets")
        | some offs =>
          match unpack2 offs with
          | .error e => .error e
          | .ok (a, b) =>
            -- `size = offset_end_relative - offset_start_relative` and
            -- `offset_start = data_start_offset + offset_start_relative`
            -- both require numeric operands (`TypeError` otherwise).
            match a, b with
            | .jnum s, .jnum en =>
              match pyTuple shapeVal with
              | .error e => .error e
              | .ok shape =>
                .ok { dtype := dtype, shape := shape,
                      offset_start := (data_start_offset : Int) + s,
                      size := en - s, url := url }
            | _, _ => .error .typeError
  | _ => .error (.invalidTensorMeta name)

/-- The loop of `get_list_tensors` (source lines 166-183) over the decoded
metadata object: skip the reserved `__metadata__` key, parse every other
entry, and accumulate `res[name] = tensor`. -/
def tensorsFromMetadata (url : String) (data_start_offset : Nat) :
    JVal → Except Err (List (String × RemoteTensor))
  | .jobj fields =>
    fields.foldlM
      (fun res p =>
        if p.1 = "__metadata__" then .ok res
        else
          match parseTensorMeta url data_start_offset p.1 p.2 with
          | .error e => .error e
          | .ok t => .ok (dictInsert res p.1 t))
      []
  | _ => .error .typeError

/-- Model of `SafetensorRemote.get_list_tensors` (source lines 157-183). -/
def get_list_tensors (env : Env) (url : String) :
    Except Err (List (String × RemoteTensor)) := do
  let md ← get_metadata env url
  tensorsFromMetadata url md.2 md.1

/-- Model of `RemoteTensor.data` (source lines 87-91): a plain delegation to
`get_data_by_range(url=self.url, start=self.offset_start, size=self.size)`,
recomputed on every call (no caching field exists). -/
def RemoteTensor.data (t : RemoteTensor) (env : Env) : Except Err (List Nat) :=
  get_data_by_range env t.url t.offset_start t.size

/-- Model of `SafetensorRemote.check_file_exist` (source lines 355-372): URL
validation first (an invalid URL raises), then a ranged HEAD request whose
transport failures are swallowed into `False`; a response is `True` iff its
status is in `[200, 400)`. -/
def check_file_exist (env : Env) (url : String) : Except Err Bool :=
  let parsed_url := env.parse url
  if parsed_url.scheme = "" ∨ parsed_url.netloc = "" then .error (.invalidURL url)
  else
    match env.head url with
    | .error _ => .ok false
    | .ok status => .ok (decide (200 ≤ status ∧ status < 400))

def single_file_url (model_id : String) : String :=
  BASE_DOMAIN ++ "/" ++ model_id ++ "/resolve/main/model.safetensors"

def index_file_url (model_id : String) : String :=
  BASE_DOMAIN ++ "/" ++ model_id ++ "/resolve/main/model.safetensors.index.json"

def shard_file_url (model_id file : String) : String :=
  BASE_DOMAIN ++ "/" ++ model_id ++ "/resolve/main/" ++ file

/-- Strict lexicographic comparison of character lists by Unicode code point:
exactly the order Python's `str` comparison (and hence `list.sort()` on
strings) uses. -/
def charsLt : List Char → List Char → Bool
  | _, [] => false
  | [], _ :: _ => true
  | a :: as, b :: bs =>
    if a.toNat < b.toNat then true
    else if b.toNat < a.toNat then false
    else charsLt as bs

/-- Python's `<=` on strings (code-point lexicographic order). -/
def pyStrLe (a b : String) : Bool := !(charsLt b.data a.data)

/-- The lines `all_files = list(set(weight_map.values())); all_files.sort()`
(source lines 145-146): the set of distinct shard filenames in sorted order.
(The transient, unobservable iteration order of the Python `set` is
irrelevant: the sorted result is the same sorted list of distinct names,
which is how it is modelled here.) -/
def shardFiles (wmFields : List (String × JVal)) : Except Err (List String) := do
  let names ← wmFields.mapM (fun p =>
    match p.2 with
    | .jstr s => Except.ok s
    | _ => Except.error Err.typeError)
  Except.ok (names.dedup.insertionSort (fun a b => pyStrLe a b = true))

/-- The merge loop of source lines 148-152: for each shard file in order,
fetch its tensor list and write every entry into the accumulated dict
(`tensors[key] = val`, overwriting earlier shards on a duplicate name). -/
def mergeShards (fetchShard : String → Except Err (List (String × RemoteTensor)))
    (files : List String) : Except Err (List (String × RemoteTensor)) :=
  files.foldlM
    (fun tensors file => do
      let ts ← fetchShard file
      pure (ts.foldl (fun acc p => dictInsert acc p.1 p.2) tensors))
    []

/-- Spec-side formulation of the merge result of §4.3 ("later shard wins on
name collision"): the value for tensor `n` is the one from the last shard in
`files` whose map binds `n`. -/
def lastShardValue {α : Type} (ms : String → List (String × α)) (files : List String)
    (n : String) : Option α :=
  files.foldl (fun acc f => (dictGet (ms f) n).or acc) none

/-- Model of `SafetensorRemote.get_list_tensors_hf_model` (source lines 120-155). -/
def get_list_tensors_hf_model (env : Env) (model_id : String) :
    Except Err (List (String × RemoteTensor)) := do
  let is_single_file ← check_file_exist env (single_file_url model_id)
  if is_single_file then get_list_tensors env (single_file_url model_id)
  else do
    let is_multiple_files ← check_file_exist env (index_file_url model_id)
    if is_multiple_files then do
      let index_data ← get_data_by_range env (index_file_url model_id) 0 (-1)
      match env.decode index_data with
      | none => Except.error .jsonDecodeError
      | some index_json =>
        match index_json with
        | .jobj fields =>
          -- `assert index_json.get("weight_map") is not None`
          match dictGet fields "weight_map" with
          | none => .error .weightMapMissing
          | some .jnull => .error .weightMapMissing
          | some wm =>
            match wm with
            | .jobj wmFields =>
              match shardFiles wmFields with
              | .error e => .error e
              | .ok all_files =>
                mergeShards (fun file => get_list_tensors env (shard_file_url model_id file))
                  all_files
            | _ => .error .typeError
        | _ => .error .typeError
    else .error (.modelNotFound model_id)

/-- The contiguous slice `[a, a+len)` of a static resource `f`. -/
def intSlice (f : Int → Nat) (a : Int) (len : Nat) : List Nat :=
  (List.range len).map (fun (j : Nat) => f (a + (j : Int)))

/-! ## Helper lemmas -/

lemma align8_mod (x : Nat) : align8 x % 8 = 0 := by
  unfold align8 ALIGNMENT
  split <;> omega

lemma align8_ge (x : Nat) : x ≤ align8 x := by
  unfold align8 ALIGNMENT
  split <;> omega

lemma align8_of_mod_eq_zero (y : Nat) (h : y % 8 = 0) : align8 y = y := by
  unfold align8 ALIGNMENT
  simp [h]

lemma align8_idem (x : Nat) : align8 (align8 x) = align8 x :=
  align8_of_mod_eq_zero _ (align8_mod x)

/-! ## C8: properties of the alignment function -/

/-- C8: the alignment function used for `dataStartOffset = align8(8 +
metadataLength)` is idempotent and returns a multiple of 8 that is `≥ x`;
consequently the data start offset returned by the header parser is always
`≥ 8 + metadataLength` and a multiple of 8. -/
theorem align8_properties :
    (∀ x : Nat, align8 (align8 x) = align8 x ∧ align8 x % 8 = 0 ∧ x ≤ align8 x)
    ∧ (∀ (decode : List Nat → Option JVal) (raw : List Nat) (j : JVal) (dso : Nat),
        get_metadata_core decode raw = .ok (j, dso) →
        dso = align8 (8 + leBytes (raw.take 8))
          ∧ 8 + leBytes (raw.take 8) ≤ dso ∧ dso % 8 = 0) := by
  constructor
  · intro x
    exact ⟨align8_idem x, align8_mod x, align8_ge x⟩
  · intro decode raw j dso h
    simp only [get_metadata_core] at h
    split at h
    · exact absurd h (by simp)
    · split at h
      · exact absurd h (by simp)
      · split at h
        · exact absurd h (by simp)
        · simp only [Except.ok.injEq, Prod.mk.injEq] at h
          refine ⟨h.2.symm, ?_, ?_⟩
          · rw [← h.2]; exact align8_ge _
          · rw [← h.2]; exact align8_mod _

/-- Witness for C8: a concrete 17-byte prefix declaring 9 metadata bytes
yields data start offset 24 = align8(17). -/
theorem align8_properties_witness :
    get_metadata_core (fun _ => some (.jobj []))
        ([9, 0, 0, 0, 0, 0, 0, 0] ++ List.replicate 9 48) = .ok (.jobj [], 24)
    ∧ (24 = align8 (8 + leBytes (([9, 0, 0, 0, 0, 0, 0, 0] ++
          (List.replicate 9 48 : List Nat)).take 8))
        ∧ 8 + leBytes (([9, 0, 0, 0, 0, 0, 0, 0] ++
          (List.replicate 9 48 : List Nat)).take 8) ≤ 24 ∧ 24 % 8 = 0) :=
  ⟨rfl, align8_properties.2 (fun _ => some (.jobj [])) _ (.jobj []) 24 rfl⟩

/-! ## C9: malformed URLs raise instead of reading as absent -/

/-- C9: `check_file_exist` raises `InvalidURL` for every URL whose parsed
form lacks a scheme or a host, before any request is attempted; only
transport failures occurring after that validation are swallowed into
`false`. -/
theorem checkFileExist_invalid_url :
    (∀ (env : Env) (url : String),
      ((env.parse url).scheme = "" ∨ (env.parse url).netloc = "") →
      check_file_exist env url = .error (.invalidURL url))
    ∧ (∀ (env : Env) (url : String),
      (env.parse url).scheme ≠ "" → (env.parse url).netloc ≠ "" →
      env.head url = .error () →
      check_file_exist env url = .ok false) := by
  constructor
  · intro env url h
    simp [check_file_exist, h]
  · intro env url h1 h2 h3
    simp [check_file_exist, h1, h2, h3]

/-- Witness for C9: a URL parsing to an empty scheme raises `InvalidURL`
even though the transport oracle would fail (which alone would read as
`false`); a valid URL with a failing transport reads as `false`. -/
theorem checkFileExist_invalid_url_witness :
    check_file_exist
      { parse := fun _ => ⟨"", ""⟩, server := fun _ _ => .error 0,
        decode := fun _ => none, head := fun _ => .error () } "notaurl"
      = .error (.invalidURL "notaurl")
    ∧ check_file_exist
      { parse := fun _ => ⟨"https", "huggingface.co"⟩, server := fun _ _ => .error 0,
        decode := fun _ => none, head := fun _ => .error () } "https://huggingface.co/x"
      = .ok false :=
  ⟨checkFileExist_invalid_url.1 _ "notaurl" (Or.inl rfl),
   checkFileExist_invalid_url.2 _ "https://huggingface.co/x"
     (by decide) (by decide) rfl⟩

/-! ## C10: the size = -1 single-request path -/

/-- C10: with `size = -1` the single-request path performs no byte-count
validation — any successful response body is returned unchanged — and the
`Range` header is `bytes=start-` when `start > 0` and omitted when
`start = 0`. -/
theorem fetchRange_unbounded_single_path :
    (∀ start : Int, singleRange start (-1) =
      if start > 0 then some (start, none) else none)
    ∧ (∀ (env : Env) (url : String) (start : Int) (r : Response),
        (env.parse url).scheme ≠ "" → (env.parse url).netloc ≠ "" →
        env.server url (singleRange start (-1)) = .ok r →
        r.status < 400 →
        get_data_by_range env url start (-1) = .ok r.content) := by
  constructor
  · intro start
    simp [singleRange]
  · intro env url start r h1 h2 hs hst
    have hpath : ¬ (MULTITHREAD_THREDSHOLD ≤ (-1 : Int) ∧ 1 < MULTITHREAD_COUNT) := by
      simp [MULTITHREAD_THREDSHOLD]
    simp only [get_data_by_range]
    rw [if_neg (by simp [h1, h2]), if_neg hpath]
    simp only [singleFetch, hs]
    rw [if_neg (by omega), if_neg (by simp)]

/-- Witness for C10: a 3-byte body (shorter than any bound that could be
checked) is returned unchanged from offset 5, with header `bytes=5-`. -/
theorem fetchRange_unbounded_single_path_witness :
    singleRange 5 (-1) = (if (5 : Int) > 0 then some (5, none) else none)
    ∧ get_data_by_range
      { parse := fun _ => ⟨"https", "huggingface.co"⟩,
        server := fun _ _ => .ok ⟨206, [1, 2, 3]⟩,
        decode := fun _ => none, head := fun _ => .error () } "u" 5 (-1)
      = .ok [1, 2, 3] :=
  ⟨fetchRange_unbounded_single_path.1 5,
   fetchRange_unbounded_single_path.2 _ "u" 5 ⟨206, [1, 2, 3]⟩
     (by decide) (by decide) rfl (by decide)⟩

/-! ## C3: header-parser failure conditions -/

/-- C3: `get_metadata` fetches exactly the first 5 MiB and, on the fetched
bytes, fails precisely when fewer than 8 bytes are available, when the
declared metadata region `8 + metadataLength` exceeds the fetched bytes, or
when the metadata bytes do not decode as UTF-8 JSON; every such failure is a
format error, and otherwise the decoded object and the aligned data start
offset are returned. -/
theorem parseHeader_failure_conditions :
    (∀ (env : Env) (url : String),
      get_metadata env url = (get_data_by_range env url 0 (5 * 1024 * 1024)).bind
        (get_metadata_core env.decode))
    ∧ (∀ (decode : List Nat → Option JVal) (raw : List Nat),
        (∃ e, get_metadata_core decode raw = .error e) ↔
          (raw.length < 8 ∨ raw.length < 8 + leBytes (raw.take 8) ∨
            decode ((raw.drop 8).take (leBytes (raw.take 8))) = none))
    ∧ (∀ (decode : List Nat → Option JVal) (raw : List Nat) (e : Err),
        get_metadata_core decode raw = .error e → e.isFormat = true)
    ∧ (∀ (decode : List Nat → Option JVal) (raw : List Nat) (j : JVal),
        ¬ raw.length < 8 → ¬ raw.length < 8 + leBytes (raw.take 8) →
        decode ((raw.drop 8).take (leBytes (raw.take 8))) = some j →
        get_metadata_core decode raw = .ok (j, align8 (8 + leBytes (raw.take 8)))) := by
  refine ⟨fun env url => rfl, ?_, ?_, ?_⟩
  · intro decode raw
    constructor
    · rintro ⟨e, he⟩
      simp only [get_metadata_core] at he
      split at he
      · left; assumption
      · split at he
        · right; left; assumption
        · split at he
          · right; right; assumption
          · exact absurd he (by simp)
    · intro h
      simp only [get_metadata_core]
      split
      · exact ⟨_, rfl⟩
      · split
        · exact ⟨_, rfl⟩
        · split
          · exact ⟨_, rfl⟩
          · rcases h with h | h | h <;> simp_all
  · intro decode raw e he
    simp only [get_metadata_core] at he
    split at he
    · simp only [Except.error.injEq] at he; subst he; rfl
    · split at he
      · simp only [Except.error.injEq] at he; subst he; rfl
      · split at he
        · simp only [Except.error.injEq] at he; subst he; rfl
        · exact absurd he (by simp)
  · intro decode raw j h1 h2 h3
    simp only [get_metadata_core, h3]
    rw [if_neg h1, if_neg h2]

/-- Witness for C3: the empty fetch fails (format error), and an 8-byte
prefix declaring zero metadata bytes that decode to JSON null succeeds with
the aligned offset. -/
theorem parseHeader_failure_conditions_witness :
    (∃ e, get_metadata_core (fun _ => none) ([] : List Nat) = .error e)
    ∧ Err.isFormat .notEnoughMetadataSize = true
    ∧ get_metadata_core (fun _ => some .jnull) [0, 0, 0, 0, 0, 0, 0, 0]
        = .ok (.jnull, align8 (8 + leBytes (([0, 0, 0, 0, 0, 0, 0, 0] : List Nat).take 8))) :=
  ⟨(parseHeader_failure_conditions.2.1 (fun _ => none) []).mpr (Or.inl (by decide)),
   parseHeader_failure_conditions.2.2.1 (fun _ => none) [] .notEnoughMetadataSize rfl,
   parseHeader_failure_conditions.2.2.2 (fun _ => some .jnull) [0, 0, 0, 0, 0, 0, 0, 0]
     .jnull (by decide) (by decide) rfl⟩

/-! ## C4: per-tensor field validation -/

/-- C4 counterexample: a tensor entry whose `data_offsets` are reversed
(`start = 100 > end = 0`) is accepted without any error — the parser performs
no `start ≤ end` check — and produces a tensor of negative size `-100`. -/
theorem parseHeader_accepts_reversed_offsets :
    tensorsFromMetadata "u" 0
      (.jobj [("w", .jobj [("dtype", .jstr "F32"), ("shape", .jarr [.jnum 2]),
        ("data_offsets", .jarr [.jnum 100, .jnum 0])])])
    = .ok [("w", { dtype := .jstr "F32", shape := [.jnum 2],
                   offset_start := 100, size := -100, url := "u" })] := rfl

/-- C4 (amended): for every key except `"__metadata__"` the parser requires
an object value containing `dtype`, `shape`, and `data_offsets` unpackable
into exactly two elements; a missing key raises an error naming the tensor
and the key, and a non-object value raises an error naming the tensor, while
a wrong-arity `data_offsets` raises an error without the tensor name; no
`start ≤ end` check is made — a numeric pair is accepted as-is, with
`size = end - start` possibly negative. -/
theorem parseHeader_tensor_field_requirements :
    (∀ (env : Env) (url : String),
      get_list_tensors env url = (get_metadata env url).bind
        (fun md => tensorsFromMetadata url md.2 md.1))
    ∧ (∀ (url : String) (dso : Nat) (name : String) (v : JVal),
        (∀ fs, v ≠ .jobj fs) →
        parseTensorMeta url dso name v = .error (.invalidTensorMeta name))
    ∧ (∀ (url : String) (dso : Nat) (name : String) (fields : List (String × JVal)),
        dictGet fields "dtype" = none →
        parseTensorMeta url dso name (.jobj fields) = .error (.missingKey name "dtype"))
    ∧ (∀ (url : String) (dso : Nat) (name : String) (fields : List (String × JVal)) (dt : JVal),
        dictGet fields "dtype" = some dt → dictGet fields "shape" = none →
        parseTensorMeta url dso name (.jobj fields) = .error (.missingKey name "shape"))
    ∧ (∀ (url : String) (dso : Nat) (name : String) (fields : List (String × JVal)) (dt sh : JVal),
        dictGet fields "dtype" = some dt → dictGet fields "shape" = some sh →
        dictGet fields "data_offsets" = none →
        parseTensorMeta url dso name (.jobj fields) = .error (.missingKey name "data_offsets"))
    ∧ (∀ (url : String) (dso : Nat) (name : String) (fields : List (String × JVal))
        (dt sh : JVal) (xs : List JVal),
        dictGet fields "dtype" = some dt → dictGet fields "shape" = some sh →
        dictGet fields "data_offsets" = some (.jarr xs) → xs.length ≠ 2 →
        parseTensorMeta url dso name (.jobj fields) = .error .unpackMismatch)
    ∧ (∀ (url : String) (dso : Nat) (name : String) (fields : List (String × JVal))
        (dt sh : JVal) (s e : Int) (shp : List JVal),
        dictGet fields "dtype" = some dt → dictGet fields "shape" = some sh →
        dictGet fields "data_offsets" = some (.jarr [.jnum s, .jnum e]) →
        pyTuple sh = .ok shp →
        parseTensorMeta url dso name (.jobj fields) =
          .ok { dtype := dt, shape := shp, offset_start := (dso : Int) + s,
                size := e - s, url := url }) := by

  refine ⟨fun env url => rfl, ?_, ?_, ?_, ?_, ?_, ?_⟩
  · intro url dso name v h
    cases v with
    | jobj fs => exact absurd rfl (h fs)
    | jnull => rfl
    | jbool b => rfl
    | jnum n => rfl
    | jstr s => rfl
    | jarr xs => rfl
  · intro url dso name fields h1
    simp [parseTensorMeta, h1]
  · intro url dso name fields dt h1 h2
    simp [parseTensorMeta, h1, h2]
  · intro url dso name fields dt sh h1 h2 h3
    simp [parseTensorMeta, h1, h2, h3]
  · intro url dso name fields dt sh xs h1 h2 h3 hlen
    rcases xs with _ | ⟨a, _ | ⟨b, _ | ⟨c, rest⟩⟩⟩
    · simp [parseTensorMeta, h1, h2, h3, unpack2]
    · simp [parseTensorMeta, h1, h2, h3, unpack2]
    · exact absurd rfl hlen
    · simp [parseTensorMeta, h1, h2, h3, unpack2]
  · intro url dso name fields dt sh s e shp h1 h2 h3 h4
    simp [parseTensorMeta, h1, h2, h3, h4, unpack2]

/-- Witness for C4: concrete instances — a non-object tensor value, each of
the three missing keys, a wrong-arity `data_offsets`, and an accepted numeric
pair (no ordering constraint). -/
theorem parseHeader_tensor_field_requirements_witness :
    parseTensorMeta "u" 0 "w" (.jnum 5) = .error (.invalidTensorMeta "w")
    ∧ parseTensorMeta "u" 0 "w" (.jobj []) = .error (.missingKey "w" "dtype")
    ∧ parseTensorMeta "u" 0 "w" (.jobj [("dtype", .jstr "F32")])
        = .error (.missingKey "w" "shape")
    ∧ parseTensorMeta "u" 0 "w"
        (.jobj [("dtype", .jstr "F32"), ("shape", .jarr [])])
        = .error (.missingKey "w" "data_offsets")
    ∧ parseTensorMeta "u" 0 "w"
        (.jobj [("dtype", .jstr "F32"), ("shape", .jarr []),
                ("data_offsets", .jarr [.jnum 1])])
        = .error .unpackMismatch
    ∧ parseTensorMeta "u" 0 "w"
        (.jobj [("dtype", .jstr "F32"), ("shape", .jarr []),
                ("data_offsets", .jarr [.jnum 3, .jnum 10])])
        = .ok { dtype := .jstr "F32", shape := [],
                offset_start := ((0 : Nat) : Int) + 3,
                size := (10 : Int) - 3, url := "u" } :=
  ⟨parseHeader_tensor_field_requirements.2.1 "u" 0 "w" (.jnum 5) (fun fs h => nomatch h),
   parseHeader_tensor_field_requirements.2.2.1 "u" 0 "w" [] rfl,
   parseHeader_tensor_field_requirements.2.2.2.1 "u" 0 "w" _ (.jstr "F32") rfl rfl,
   parseHeader_tensor_field_requirements.2.2.2.2.1 "u" 0 "w" _ (.jstr "F32") (.jarr [])
     rfl rfl rfl,
   parseHeader_tensor_field_requirements.2.2.2.2.2.1 "u" 0 "w" _ (.jstr "F32") (.jarr [])
     [.jnum 1] rfl rfl rfl (by decide),
   parseHeader_tensor_field_requirements.2.2.2.2.2.2 "u" 0 "w" _ (.jstr "F32") (.jarr [])
     3 10 [] rfl rfl rfl rfl⟩

/-! ## C6: RemoteTensor.data delegation and exact-size guarantee -/

lemma get_data_by_range_ok_length (env : Env) (url : String) (start size : Int)
    (bs : List Nat) (h0 : 0 ≤ size) (h : get_data_by_range env url start size = .ok bs) :
    (bs.length : Int) = size := by
  simp only [get_data_by_range] at h
  split at h
  · exact absurd h (by simp)
  · split at h
    · rename_i hcond
      simp only [parallelFetch] at h
      split at h
      · exact absurd h (by simp)
      · split at h
        · exact absurd h (by simp)
        · rename_i hlen
          simp only [Except.ok.injEq] at h
          subst h
          omega
    · simp only [singleFetch] at h
      split at h
      · exact absurd h (by simp)
      · split at h
        · exact absurd h (by simp)
        · split at h
          · exact absurd h (by simp)
          · rename_i hc
            simp only [Except.ok.injEq] at h
            subst h
            push_neg at hc
            exact hc (by omega)

/-- C6: `RemoteTensor.data` delegates each call directly to
`get_data_by_range(url, offset_start, size)` (no memoization is possible:
the value has no cache field and the call is recomputed each time); a tensor
built from a header entry with `data_offsets = [s, e]` carries
`offset_start = dataStartOffset + s` and `size = e - s`; and a successful
read returns exactly `size` bytes. -/
theorem remoteTensor_data_delegation :
    (∀ (t : RemoteTensor) (env : Env),
      t.data env = get_data_by_range env t.url t.offset_start t.size)
    ∧ (∀ (url : String) (dso : Nat) (name : String) (fields : List (String × JVal))
        (s e : Int) (t : RemoteTensor),
        dictGet fields "data_offsets" = some (.jarr [.jnum s, .jnum e]) →
        parseTensorMeta url dso name (.jobj fields) = .ok t →
        t.offset_start = (dso : Int) + s ∧ t.size = e - s ∧ t.url = url)
    ∧ (∀ (t : RemoteTensor) (env : Env) (bs : List Nat),
        0 ≤ t.size → t.data env = .ok bs → (bs.length : Int) = t.size) := by
  refine ⟨fun t env => rfl, ?_, ?_⟩
  · intro url dso name fields s e t h1 h2
    simp only [parseTensorMeta] at h2
    split at h2
    · cases h2
    · split at h2
      · cases h2
      · split at h2
        · simp_all
        · rename_i offs heq
          rw [h1] at heq
          simp only [Option.some.injEq] at heq
          subst heq
          simp only [unpack2] at h2
          split at h2
          · cases h2
          · simp only [Except.ok.injEq] at h2
            subst h2
            exact ⟨rfl, rfl, rfl⟩
  · intro t env bs h0 h
    exact get_data_by_range_ok_length env t.url t.offset_start t.size bs h0 h

/-- Witness for C6: the scenario `data_offsets: [0, 100]` produces a tensor
requesting exactly 100 bytes at `dataStartOffset + 0`, and a successful read
of it returns exactly 100 bytes. -/
theorem remoteTensor_data_delegation_witness :
    (RemoteTensor.data { dtype := .jstr "F32", shape := [], offset_start := 128,
                         size := 100, url := "u" }
        { parse := fun _ => ⟨"https", "huggingface.co"⟩,
          server := fun _ _ => .ok ⟨206, List.replicate 100 7⟩,
          decode := fun _ => none, head := fun _ => .error () }
      = get_data_by_range
        { parse := fun _ => ⟨"https", "huggingface.co"⟩,
          server := fun _ _ => .ok ⟨206, List.replicate 100 7⟩,
          decode := fun _ => none, head := fun _ => .error () } "u" 128 100)
    ∧ ({ dtype := .jstr "F32", shape := [], offset_start := ((28 : Nat) : Int) + 0,
         size := (100 : Int) - 0, url := "u" } : RemoteTensor).offset_start
        = ((28 : Nat) : Int) + 0
    ∧ (((List.replicate 100 7 : List Nat).length : Int) = (100 : Int)) :=
  ⟨remoteTensor_data_delegation.1 _ _,
   (remoteTensor_data_delegation.2.1 "u" 28 "w"
      [("dtype", .jstr "F32"), ("shape", .jarr []),
       ("data_offsets", .jarr [.jnum 0, .jnum 100])] 0 100 _ rfl rfl).1,
   remoteTensor_data_delegation.2.2
     { dtype := .jstr "F32", shape := [], offset_start := 128, size := 100, url := "u" }
     { parse := fun _ => ⟨"https", "huggingface.co"⟩,
       server := fun _ _ => .ok ⟨206, List.replicate 100 7⟩,
       decode := fun _ => none, head := fun _ => .error () }
     (List.replicate 100 7) (by decide) rfl⟩

/-! ## C7: index-manifest fetch and weight_map requirement -/

/-- C7: when the single-file probe fails and the index manifest exists, the
resolver fetches the manifest with a single unranged request
(`get_data_by_range(index_url, 0)`, size `-1`, start `0`: no `Range` header
and no multithreading), parses it as JSON, and fails with the manifest format
error (`weight_map not found`, the source's assertion, classified as a
FormatError by the spec taxonomy) when `weight_map` is absent, or with a JSON
decode error when the manifest is not valid JSON. -/
theorem resolveModel_index_manifest :
    singleRange 0 (-1) = none
    ∧ ¬ (MULTITHREAD_THREDSHOLD ≤ (-1 : Int) ∧ 1 < MULTITHREAD_COUNT)
    ∧ (∀ (env : Env) (model_id : String) (d : List Nat) (fields : List (String × JVal)),
        check_file_exist env (single_file_url model_id) = .ok false →
        check_file_exist env (index_file_url model_id) = .ok true →
        get_data_by_range env (index_file_url model_id) 0 (-1) = .ok d →
        env.decode d = some (.jobj fields) →
        dictGet fields "weight_map" = none →
        get_list_tensors_hf_model env model_id = .error .weightMapMissing)
    ∧ (∀ (env : Env) (model_id : String) (d : List Nat),
        check_file_exist env (single_file_url model_id) = .ok false →
        check_file_exist env (index_file_url model_id) = .ok true →
        get_data_by_range env (index_file_url model_id) 0 (-1) = .ok d →
        env.decode d = none →
        get_list_tensors_hf_model env model_id = .error .jsonDecodeError)
    ∧ Err.weightMapMissing.isFormat = true := by
  refine ⟨rfl, by simp [MULTITHREAD_THREDSHOLD], ?_, ?_, rfl⟩
  · intro env model_id d fields h1 h2 h3 h4 h5
    simp only [get_list_tensors_hf_model, h1, h2, h3, h4, h5, bind, Except.bind,
      Bool.false_eq_true, if_false, if_true]
  · intro env model_id d h1 h2 h3 h4
    simp only [get_list_tensors_hf_model, h1, h2, h3, h4, bind, Except.bind,
      Bool.false_eq_true, if_false, if_true]

/-- Witness for C7: a concrete environment in which the single-file probe
returns 404 and the index probe 200; a manifest without `weight_map` yields
the weight-map error, and an undecodable manifest yields the JSON error. -/
theorem resolveModel_index_manifest_witness :
    get_list_tensors_hf_model
      { parse := fun _ => ⟨"https", "huggingface.co"⟩,
        server := fun _ _ => .ok ⟨200, [7]⟩,
        decode := fun _ => some (.jobj []),
        head := fun u => if u = single_file_url "m" then .ok 404 else .ok 200 } "m"
      = .error .weightMapMissing
    ∧ get_list_tensors_hf_model
      { parse := fun _ => ⟨"https", "huggingface.co"⟩,
        server := fun _ _ => .ok ⟨200, [7]⟩,
        decode := fun _ => none,
        head := fun u => if u = single_file_url "m" then .ok 404 else .ok 200 } "m"
      = .error .jsonDecodeError :=
  ⟨resolveModel_index_manifest.2.2.1 _ "m" [7] [] rfl rfl rfl rfl rfl,
   resolveModel_index_manifest.2.2.2.1 _ "m" [7] rfl rfl rfl rfl⟩

/-! ## C5: helper lemmas on string order and dict merging -/

lemma charsLt_asymm : ∀ (as bs : List Char), charsLt as bs = true → charsLt bs as = false := by
  intro as
  induction as with
  | nil =>
    intro bs h
    cases bs with
    | nil => simp [charsLt] at h
    | cons b bs' => simp [charsLt]
  | cons a as' ih =>
    intro bs h
    cases bs with
    | nil => simp [charsLt] at h
    | cons b bs' =>
      simp only [charsLt] at h ⊢
      split at h
      · rename_i hab
        rw [if_neg (by omega), if_pos hab]
      · split at h
        · exact absurd h (by simp)
        · rename_i hab hba
          rw [if_neg hba, if_neg hab]
          exact ih bs' h

lemma charsLt_trans : ∀ (as bs cs : List Char),
    charsLt as bs = true → charsLt bs cs = true → charsLt as cs = true := by
  intro as
  induction as with
  | nil =>
    intro bs cs h1 h2
    cases bs with
    | nil => simp [charsLt] at h1
    | cons b bs' =>
      cases cs with
      | nil => simp [charsLt] at h2
      | cons c cs' => simp [charsLt]
  | cons a as' ih =>
    intro bs cs h1 h2
    cases bs with
    | nil => simp [charsLt] at h1
    | cons b bs' =>
      cases cs with
      | nil => simp [charsLt] at h2
      | cons c cs' =>
        simp only [charsLt] at h1 h2 ⊢
        split at h1
        · rename_i hab
          split at h2
          · rename_i hbc
            rw [if_pos (by omega)]
          · split at h2
            · exact absurd h2 (by simp)
            · rename_i hbc hcb
              rw [if_pos (by omega)]
        · split at h1
          · exact absurd h1 (by simp)
          · rename_i hab hba
            split at h2
            · rename_i hbc
              rw [if_pos (by omega)]
            · split at h2
              · exact absurd h2 (by simp)
              · rename_i hbc hcb
                rw [if_neg (by omega), if_neg (by omega)]
                exact ih bs' cs' h1 h2

lemma charsLt_conn : ∀ (as bs : List Char),
    charsLt as bs = false → charsLt bs as = false → as = bs := by
  intro as
  induction as with
  | nil =>
    intro bs h1 h2
    cases bs with
    | nil => rfl
    | cons b bs' => simp [charsLt] at h1
  | cons a as' ih =>
    intro bs h1 h2
    cases bs with
    | nil => simp [charsLt] at h2
    | cons b bs' =>
      simp only [charsLt] at h1 h2
      split at h1
      · exact absurd h1 (by simp)
      · split at h1
        · rename_i hab hba
          rw [if_pos hba] at h2
          exact absurd h2 (by simp)
        · rename_i hab hba
          rw [if_neg hba, if_neg hab] at h2
          have hv : a = b := by
            apply Char.ext
            apply UInt32.ext
            have h3 : a.toNat = b.toNat := by omega
            simpa [Char.toNat, UInt32.toNat] using h3
          rw [hv, ih bs' h1 h2]

lemma pyStrLe_trans (a b c : String) (h1 : pyStrLe a b = true) (h2 : pyStrLe b c = true) :
    pyStrLe a c = true := by
  simp only [pyStrLe, Bool.not_eq_true'] at h1 h2 ⊢
  by_contra hca
  rw [Bool.not_eq_false] at hca
  cases hbc : charsLt b.data c.data with
  | true => exact absurd (charsLt_trans _ _ _ hbc hca) (by simp [h1])
  | false =>
    have heq : b.data = c.data := charsLt_conn _ _ hbc h2
    rw [← heq] at hca
    exact absurd hca (by simp [h1])

lemma pyStrLe_total (a b : String) : pyStrLe a b = true ∨ pyStrLe b a = true := by
  simp only [pyStrLe, Bool.not_eq_true']
  cases h : charsLt b.data a.data with
  | false => exact Or.inl rfl
  | true => exact Or.inr (charsLt_asymm _ _ h)

instance : IsTrans String (fun a b => pyStrLe a b = true) := ⟨pyStrLe_trans⟩

instance : IsTotal String (fun a b => pyStrLe a b = true) := ⟨pyStrLe_total⟩

lemma dictGet_cons {α : Type} (p : String × α) (d : List (String × α)) (n : String) :
    dictGet (p :: d) n = if p.1 = n then some p.2 else dictGet d n := by
  by_cases h : p.1 = n <;> simp [dictGet, List.find?_cons, h]

lemma dictGet_eq_none {α : Type} {d : List (String × α)} {n : String}
    (h : n ∉ d.map Prod.fst) : dictGet d n = none := by
  induction d with
  | nil => rfl
  | cons p rest ih =>
    simp only [List.map_cons, List.mem_cons, not_or] at h
    rw [dictGet_cons, if_neg (fun hc => h.1 hc.symm)]
    exact ih h.2

lemma dictGet_append {α : Type} (d1 d2 : List (String × α)) (n : String) :
    dictGet (d1 ++ d2) n = (dictGet d1 n).or (dictGet d2 n) := by
  induction d1 with
  | nil => simp [dictGet]
  | cons p rest ih => by_cases h : p.1 = n <;> simp [dictGet_cons, h, ih]

lemma dictGet_map_replace {α : Type} (d : List (String × α)) (k : String) (v : α)
    (n : String) (h : n ≠ k) :
    dictGet (d.map (fun p => if p.1 = k then (k, v) else p)) n = dictGet d n := by
  induction d with
  | nil => rfl
  | cons p rest ih =>
    by_cases hpk : p.1 = k
    · simp only [List.map_cons, if_pos hpk]
      rw [dictGet_cons, dictGet_cons, if_neg (fun hc => h hc.symm), ih,
        if_neg (fun hc => h (hpk ▸ hc).symm)]
    · simp only [List.map_cons, if_neg hpk]
      rw [dictGet_cons, dictGet_cons, ih]

lemma dictGet_map_replace_self {α : Type} (d : List (String × α)) (k : String) (v : α)
    (hany : d.any (fun p => p.1 = k) = true) :
    dictGet (d.map (fun p => if p.1 = k then (k, v) else p)) k = some v := by
  induction d with
  | nil => simp at hany
  | cons p rest ih =>
    by_cases hpk : p.1 = k
    · simp only [List.map_cons, if_pos hpk]
      rw [dictGet_cons, if_pos rfl]
    · replace hany : rest.any (fun p => p.1 = k) = true := by
        simp only [List.any_cons] at hany
        rcases (Bool.or_eq_true _ _).mp hany with h | h
        · exact absurd (of_decide_eq_true h) hpk
        · exact h
      simp only [List.map_cons, if_neg hpk]
      rw [dictGet_cons, if_neg hpk]
      exact ih hany

lemma dictGet_dictInsert {α : Type} (d : List (String × α)) (k : String) (v : α)
    (n : String) :
    dictGet (dictInsert d k v) n = if n = k then some v else dictGet d n := by
  unfold dictInsert
  split
  · rename_i hany
    by_cases hnk : n = k
    · subst hnk
      rw [if_pos rfl]
      exact dictGet_map_replace_self d n v hany
    · rw [if_neg hnk]
      exact dictGet_map_replace d k v n hnk
  · rename_i hany
    rw [dictGet_append]
    have hdn : ∀ w, dictGet d k ≠ some w := by
      intro w hw
      apply hany
      simp only [List.any_eq_true, decide_eq_true_eq]
      simp only [dictGet, Option.map_eq_some'] at hw
      obtain ⟨p, hp, hv⟩ := hw
      exact ⟨p, List.mem_of_find?_eq_some hp, by simpa using List.find?_some hp⟩
    by_cases hnk : n = k
    · subst hnk
      cases hd : dictGet d n with
      | some w => exact absurd hd (hdn w)
      | none => simp [dictGet_cons, dictGet]
    · have hkn : k ≠ n := fun hc => hnk hc.symm
      cases hd : dictGet d n with
      | some w => simp [hnk, hd]
      | none => simp [hnk, hd, dictGet_cons, hkn, dictGet]

lemma dictGet_foldl_insert {α : Type} (ts : List (String × α)) :
    ∀ (acc : List (String × α)) (n : String), (ts.map Prod.fst).Nodup →
    dictGet (ts.foldl (fun a p => dictInsert a p.1 p.2) acc) n =
      (dictGet ts n).or (dictGet acc n) := by
  induction ts with
  | nil => intro acc n _; simp [dictGet]
  | cons p rest ih =>
    intro acc n hnd
    simp only [List.map_cons, List.nodup_cons] at hnd
    simp only [List.foldl_cons]
    rw [ih _ n hnd.2]
    by_cases h : p.1 = n
    · subst h
      rw [dictGet_eq_none hnd.1, dictGet_cons, if_pos rfl, dictGet_dictInsert, if_pos rfl]
      simp [Option.none_or, Option.or_some]
    · have hnp : ¬ n = p.1 := fun hc => h hc.symm
      rw [dictGet_cons, if_neg h, dictGet_dictInsert, if_neg hnp]

lemma mergeShards_eq_foldl
    (fetchShard : String → Except Err (List (String × RemoteTensor)))
    (ms : String → List (String × RemoteTensor)) :
    ∀ (files : List String) (acc : List (String × RemoteTensor)),
    (∀ f ∈ files, fetchShard f = .ok (ms f)) →
    files.foldlM
      (fun tensors file => do
        let ts ← fetchShard file
        pure (ts.foldl
          (fun (a : List (String × RemoteTensor)) (p : String × RemoteTensor) =>
            dictInsert a p.1 p.2) tensors))
      acc
      = .ok (files.foldl
          (fun a f => (ms f).foldl
            (fun (a2 : List (String × RemoteTensor)) p => dictInsert a2 p.1 p.2) a)
          acc) := by
  intro files
  induction files with
  | nil => intro acc _; rfl
  | cons f rest ih =>
    intro acc h
    rw [List.foldlM_cons]
    have hf : fetchShard f = .ok (ms f) := h f (by simp)
    rw [hf]
    simp only [List.foldl_cons, bind, Except.bind, pure, Except.pure]
    exact ih _ (fun g hg => h g (by simp [hg]))

lemma lookup_foldl_merge (ms : String → List (String × RemoteTensor)) :
    ∀ (files : List String) (acc : List (String × RemoteTensor)) (n : String),
    (∀ f ∈ files, ((ms f).map Prod.fst).Nodup) →
    dictGet (files.foldl (fun a f => (ms f).foldl (fun a2 p => dictInsert a2 p.1 p.2) a) acc) n
      = files.foldl (fun o f => (dictGet (ms f) n).or o) (dictGet acc n) := by
  intro files
  induction files with
  | nil => intro acc n _; rfl
  | cons f rest ih =>
    intro acc n h
    simp only [List.foldl_cons]
    rw [ih _ n (fun g hg => h g (by simp [hg]))]
    rw [dictGet_foldl_insert (ms f) acc n (h f (by simp))]

lemma shardFiles_names (wmFields : List (String × JVal)) (ns : List String)
    (h : wmFields.mapM
        (fun p =>
          match p.2 with
          | .jstr s => Except.ok s
          | _ => Except.error Err.typeError)
        = .ok ns) :
    wmFields.map (fun p => p.2) = ns.map JVal.jstr := by
  induction wmFields generalizing ns with
  | nil =>
    simp only [List.mapM_nil, pure, Except.pure, Except.ok.injEq] at h
    subst h
    rfl
  | cons p rest ih =>
    rw [List.mapM_cons] at h
    cases hp : p.2 with
    | jstr s =>
      rw [hp] at h
      simp only [bind, Except.bind, pure, Except.pure] at h
      cases hrest : rest.mapM
          (fun p =>
            match p.2 with
            | .jstr s => Except.ok s
            | _ => Except.error Err.typeError) with
      | error e => rw [hrest] at h; cases h
      | ok xs =>
        rw [hrest] at h
        simp only [Except.ok.injEq] at h
        subst h
        simp only [List.map_cons, hp, ih xs hrest]
    | jnull => rw [hp] at h; cases h
    | jbool b => rw [hp] at h; cases h
    | jnum m => rw [hp] at h; cases h
    | jarr xs => rw [hp] at h; cases h
    | jobj fs => rw [hp] at h; cases h

/-- C5: in multi-file resolution the distinct shard filenames are sorted
lexicographically and processed in that order (so `["b.bin", "a.bin"]` in the
manifest is processed as `["a.bin", "b.bin"]`), the resolver's merge loop runs
over exactly that sorted list, and for a duplicate tensor name the
later-processed shard silently overwrites the earlier one (the final binding
is the last shard in sorted order that defines the name). -/
theorem resolveModel_sorted_shard_merge :
    (∀ (wmFields : List (String × JVal)) (files : List String),
        shardFiles wmFields = .ok files →
        List.Sorted (fun a b => pyStrLe a b = true) files
        ∧ files.Nodup
        ∧ (∀ f, f ∈ files ↔ (JVal.jstr f) ∈ wmFields.map (fun p => p.2)))
    ∧ (∀ (fetchShard : String → Except Err (List (String × RemoteTensor)))
        (ms : String → List (String × RemoteTensor)) (files : List String)
        (d : List (String × RemoteTensor)),
        (∀ f ∈ files, fetchShard f = .ok (ms f)) →
        (∀ f ∈ files, ((ms f).map Prod.fst).Nodup) →
        mergeShards fetchShard files = .ok d →
        ∀ n, dictGet d n = lastShardValue ms files n)
    ∧ shardFiles [("t1", .jstr "b.bin"), ("t2", .jstr "a.bin")] = .ok ["a.bin", "b.bin"]
    ∧ (∀ (env : Env) (model_id : String) (dbytes : List Nat)
        (fields wmFields : List (String × JVal)) (files : List String),
        check_file_exist env (single_file_url model_id) = .ok false →
        check_file_exist env (index_file_url model_id) = .ok true →
        get_data_by_range env (index_file_url model_id) 0 (-1) = .ok dbytes →
        env.decode dbytes = some (.jobj fields) →
        dictGet fields "weight_map" = some (.jobj wmFields) →
        shardFiles wmFields = .ok files →
        get_list_tensors_hf_model env model_id =
          mergeShards (fun file => get_list_tensors env (shard_file_url model_id file))
            files) := by
  refine ⟨?_, ?_, rfl, ?_⟩
  · intro wmFields files h
    simp only [shardFiles, bind, Except.bind] at h
    split at h
    · cases h
    · rename_i names hnames
      simp only [Except.ok.injEq] at h
      subst h
      refine ⟨List.sorted_insertionSort _ _,
        ((List.perm_insertionSort _ _).nodup_iff).mpr (List.nodup_dedup _), ?_⟩
      intro f
      rw [(List.perm_insertionSort _ _).mem_iff, List.mem_dedup,
        shardFiles_names wmFields names hnames]
      simp [List.mem_map]
  · intro fetchShard ms files d h1 h2 h3 n
    unfold mergeShards at h3
    rw [mergeShards_eq_foldl fetchShard ms files [] h1] at h3
    simp only [Except.ok.injEq] at h3
    subst h3
    rw [lookup_foldl_merge ms files [] n h2]
    rfl
  · intro env model_id dbytes fields wmFields files h1 h2 h3 h4 h5 h6
    simp only [get_list_tensors_hf_model, h1, h2, h3, h4, h5, h6, bind, Except.bind,
      Bool.false_eq_true, if_false, if_true]

/-- Witness for C5: the manifest scenario `["b.bin", "a.bin"]` is processed
in sorted order `["a.bin", "b.bin"]`; merging two shards that both define
tensor `"t"` leaves the later shard's value; and a concrete resolver run
reduces to the merge over the sorted shard list. -/
theorem resolveModel_sorted_shard_merge_witness :
    (List.Sorted (fun a b => pyStrLe a b = true) ["a.bin", "b.bin"]
      ∧ (["a.bin", "b.bin"] : List String).Nodup
      ∧ (∀ f, f ∈ (["a.bin", "b.bin"] : List String) ↔
          JVal.jstr f ∈ ([("t1", JVal.jstr "b.bin"), ("t2", JVal.jstr "a.bin")] :
            List (String × JVal)).map (fun p => p.2)))
    ∧ dictGet [("t", ({ dtype := .jnull, shape := [], offset_start := 0, size := 1,
                        url := "b" } : RemoteTensor))] "t"
        = lastShardValue
            (fun f => if f = "a.bin"
              then [("t", ({ dtype := .jnull, shape := [], offset_start := 0, size := 1,
                             url := "a" } : RemoteTensor))]
              else [("t", ({ dtype := .jnull, shape := [], offset_start := 0, size := 1,
                             url := "b" } : RemoteTensor))])
            ["a.bin", "b.bin"] "t"
    ∧ get_list_tensors_hf_model
        { parse := fun _ => ⟨"https", "huggingface.co"⟩,
          server := fun _ _ => .ok ⟨200, [7]⟩,
          decode := fun _ => some (.jobj [("weight_map", .jobj [("t2", .jstr "a.bin")])]),
          head := fun u => if u = single_file_url "m" then .ok 404 else .ok 200 } "m"
        = mergeShards
            (fun file => get_list_tensors
              { parse := fun _ => ⟨"https", "huggingface.co"⟩,
                server := fun _ _ => .ok ⟨200, [7]⟩,
                decode := fun _ => some (.jobj [("weight_map", .jobj [("t2", .jstr "a.bin")])]),
                head := fun u => if u = single_file_url "m" then .ok 404 else .ok 200 }
              (shard_file_url "m" file))
            ["a.bin"] :=
  ⟨resolveModel_sorted_shard_merge.1 [("t1", .jstr "b.bin"), ("t2", .jstr "a.bin")]
     ["a.bin", "b.bin"] resolveModel_sorted_shard_merge.2.2.1,
   resolveModel_sorted_shard_merge.2.1
     (fun f => .ok (if f = "a.bin"
       then [("t", ({ dtype := .jnull, shape := [], offset_start := 0, size := 1,
                      url := "a" } : RemoteTensor))]
       else [("t", ({ dtype := .jnull, shape := [], offset_start := 0, size := 1,
                      url := "b" } : RemoteTensor))]))
     (fun f => if f = "a.bin"
       then [("t", ({ dtype := .jnull, shape := [], offset_start := 0, size := 1,
                      url := "a" } : RemoteTensor))]
       else [("t", ({ dtype := .jnull, shape := [], offset_start := 0, size := 1,
                      url := "b" } : RemoteTensor))])
     ["a.bin", "b.bin"]
     [("t", ({ dtype := .jnull, shape := [], offset_start := 0, size := 1,
               url := "b" } : RemoteTensor))]
     (fun f _ => rfl)
     (fun f _ => by by_cases h : f = "a.bin" <;> simp [h])
     rfl "t",
   resolveModel_sorted_shard_merge.2.2.2 _ "m" [7]
     [("weight_map", .jobj [("t2", .jstr "a.bin")])] [("t2", .jstr "a.bin")]
     ["a.bin"] rfl rfl rfl rfl rfl rfl⟩

/-! ## C1/C2: helper lemmas on the chunk layout -/

lemma intSlice_length (f : Int → Nat) (a : Int) (len : Nat) :
    (intSlice f a len).length = len := by
  simp only [intSlice, List.length_map, List.length_range]

lemma intSlice_succ (f : Int → Nat) (a : Int) (m : Nat) :
    intSlice f a (m + 1) = f a :: intSlice f (a + 1) m := by
  simp only [intSlice, List.range_succ_eq_map, List.map_cons, List.map_map]
  congr 1
  · norm_num
  · apply List.map_congr_left
    intro j _
    simp only [Function.comp_apply]
    congr 1
    push_cast
    ring

lemma intSlice_append (f : Int → Nat) (l1 : Nat) : ∀ (a : Int) (l2 : Nat),
    intSlice f a l1 ++ intSlice f (a + l1) l2 = intSlice f a (l1 + l2) := by
  induction l1 with
  | zero =>
    intro a l2
    simp only [intSlice, List.range_zero, List.map_nil, List.nil_append,
      Nat.cast_zero, add_zero, Nat.zero_add]
  | succ m ih =>
    intro a l2
    rw [intSlice_succ]
    have hc : a + ((m : Nat) + 1 : Nat) = (a + 1) + (m : Nat) := by push_cast; ring
    rw [hc]
    have hn : m + 1 + l2 = (m + l2) + 1 := by omega
    rw [hn, intSlice_succ, List.cons_append, ih]

lemma chunkSpecs_length : ∀ (n base rem : Nat) (off : Int) (i : Nat),
    (chunkSpecs base rem off i n).length = n := by
  intro n
  induction n with
  | zero => intro base rem off i; rfl
  | succ m ih => intro base rem off i; simp [chunkSpecs, ih]

lemma chunkSpecs_getD_snd : ∀ (n base rem : Nat) (off : Int) (i j : Nat), j < n →
    ((chunkSpecs base rem off i n).getD j (0, 0)).2
      = base + if i + j < rem then 1 else 0 := by
  intro n
  induction n with
  | zero => intro base rem off i j hj; omega
  | succ m ih =>
    intro base rem off i j hj
    cases j with
    | zero => simp [chunkSpecs]
    | succ j' =>
      simp only [chunkSpecs, List.getD_cons_succ]
      rw [ih base rem _ (i + 1) j' (by omega)]
      have hij : i + 1 + j' = i + (j' + 1) := by omega
      rw [hij]

lemma chunkSpecs_getD_fst_zero : ∀ (n base rem : Nat) (off : Int) (i : Nat), 0 < n →
    ((chunkSpecs base rem off i n).getD 0 (0, 0)).1 = off := by
  intro n base rem off i h
  cases n with
  | zero => omega
  | succ m => simp [chunkSpecs]

lemma chunkSpecs_getD_fst_succ : ∀ (n base rem : Nat) (off : Int) (i j : Nat), j + 1 < n →
    ((chunkSpecs base rem off i n).getD (j + 1) (0, 0)).1
      = ((chunkSpecs base rem off i n).getD j (0, 0)).1
        + (((chunkSpecs base rem off i n).getD j (0, 0)).2 : Int) := by
  intro n
  induction n with
  | zero => intro base rem off i j hj; omega
  | succ m ih =>
    intro base rem off i j hj
    cases j with
    | zero =>
      cases m with
      | zero => omega
      | succ k => simp [chunkSpecs]
    | succ j' =>
      simp only [chunkSpecs, List.getD_cons_succ]
      exact ih base rem _ (i + 1) j' (by omega)

lemma chunkSpecs_sum : ∀ (n base rem : Nat) (off : Int) (i : Nat),
    ((chunkSpecs base rem off i n).map (fun p => p.2)).sum
      = n * base + (min (i + n) rem - min i rem) := by
  intro n
  induction n with
  | zero => intro base rem off i; simp [chunkSpecs]
  | succ m ih =>
    intro base rem off i
    simp only [chunkSpecs, List.map_cons, List.sum_cons]
    rw [ih base rem _ (i + 1), Nat.succ_mul]
    split <;> omega

lemma chunkSpecs_flatten (f : Int → Nat) : ∀ (n base rem : Nat) (off : Int) (i : Nat),
    ((chunkSpecs base rem off i n).map (fun p => intSlice f p.1 p.2)).flatten
      = intSlice f off (((chunkSpecs base rem off i n).map (fun p => p.2)).sum) := by
  intro n
  induction n with
  | zero => intro base rem off i; rfl
  | succ m ih =>
    intro base rem off i
    simp only [chunkSpecs, List.map_cons, List.flatten_cons, List.sum_cons]
    rw [ih base rem _ (i + 1)]
    exact intSlice_append f _ off _

lemma scanResults_map_ok (l : List (List Nat)) :
    scanResults (l.map Except.ok) = .ok l := by
  induction l with
  | nil => rfl
  | cons c rest ih => simp [scanResults, ih, Except.map]

lemma scanResults_first_error (e : Err) :
    ∀ (l1 : List (List Nat)) (rest : List (Except Err (List Nat))),
    scanResults (l1.map Except.ok ++ .error e :: rest) = .error e := by
  intro l1
  induction l1 with
  | nil => intro rest; rfl
  | cons c l1' ih => intro rest; simp [scanResults, ih, Except.map]

lemma map_eq_range_getD {α β : Type} (d : α) (g : α → β) (l : List α) :
    l.map g = (List.range l.length).map (fun i => g (l.getD i d)) := by
  apply List.ext_getElem
  · simp
  · intro i h1 h2
    simp only [List.getElem_map, List.getElem_range]
    rw [List.getD_eq_getElem]

/-- C1: in the parallel path (`size ≥ 100 MiB`, 8 workers), the range
`[start, start+size)` is partitioned into exactly 8 contiguous chunks in
offset order — chunk `i` has size `size // 8` plus one extra byte when
`i < size % 8` — so the sizes differ by at most 1 and sum exactly to `size`;
and against a static resource `f` the call succeeds returning the
concatenation of the per-chunk slices in original chunk-index order, which is
exactly the requested range. -/
theorem fetchRange_parallel_chunking
    (env : Env) (url : String) (start size : Int) (f : Int → Nat)
    (h1 : (env.parse url).scheme ≠ "") (h2 : (env.parse url).netloc ≠ "")
    (hsz : MULTITHREAD_THREDSHOLD ≤ size)
    (hserver : ∀ a b : Int,
      env.server url (some (a, some b)) = .ok ⟨206, intSlice f a (b + 1 - a).toNat⟩) :
    (chunkLayout start size.toNat).length = 8
    ∧ (∀ i, i < 8 → ((chunkLayout start size.toNat).getD i (0, 0)).2
        = size.toNat / 8 + if i < size.toNat % 8 then 1 else 0)
    ∧ ((chunkLayout start size.toNat).map (fun p => p.2)).sum = size.toNat
    ∧ ((chunkLayout start size.toNat).getD 0 (0, 0)).1 = start
    ∧ (∀ i, i + 1 < 8 → ((chunkLayout start size.toNat).getD (i + 1) (0, 0)).1
        = ((chunkLayout start size.toNat).getD i (0, 0)).1
          + (((chunkLayout start size.toNat).getD i (0, 0)).2 : Int))
    ∧ (∀ i j, i < 8 → j < 8 → ((chunkLayout start size.toNat).getD i (0, 0)).2
        ≤ ((chunkLayout start size.toNat).getD j (0, 0)).2 + 1)
    ∧ get_data_by_range env url start size
        = .ok (((chunkLayout start size.toNat).map (fun p => intSlice f p.1 p.2)).flatten)
    ∧ ((chunkLayout start size.toNat).map (fun p => intSlice f p.1 p.2)).flatten
        = intSlice f start size.toNat := by
  have hN : 104857600 ≤ size.toNat := by
    have hsz' : (104857600 : Int) ≤ size := by
      simp only [MULTITHREAD_THREDSHOLD] at hsz
      omega
    omega
  have hrem : size.toNat % 8 < 8 := Nat.mod_lt _ (by norm_num)
  have hbase : 0 < size.toNat / 8 := by omega
  have hlen : (chunkLayout start size.toNat).length = 8 :=
    chunkSpecs_length 8 _ _ _ _
  have hsnd : ∀ i, i < 8 → ((chunkLayout start size.toNat).getD i (0, 0)).2
      = size.toNat / 8 + if i < size.toNat % 8 then 1 else 0 := by
    intro i hi
    unfold chunkLayout MULTITHREAD_COUNT
    rw [chunkSpecs_getD_snd 8 _ _ _ 0 i hi]
    simp
  have hsum : ((chunkLayout start size.toNat).map (fun p => p.2)).sum = size.toNat := by
    unfold chunkLayout MULTITHREAD_COUNT
    rw [chunkSpecs_sum 8 _ _ _ 0]
    omega
  have hfst0 : ((chunkLayout start size.toNat).getD 0 (0, 0)).1 = start :=
    chunkSpecs_getD_fst_zero 8 _ _ _ 0 (by norm_num)
  have hfsts : ∀ i, i + 1 < 8 → ((chunkLayout start size.toNat).getD (i + 1) (0, 0)).1
      = ((chunkLayout start size.toNat).getD i (0, 0)).1
        + (((chunkLayout start size.toNat).getD i (0, 0)).2 : Int) := by
    intro i hi
    exact chunkSpecs_getD_fst_succ 8 _ _ _ 0 i hi
  have hdiff : ∀ i j, i < 8 → j < 8 → ((chunkLayout start size.toNat).getD i (0, 0)).2
      ≤ ((chunkLayout start size.toNat).getD j (0, 0)).2 + 1 := by
    intro i j hi hj
    rw [hsnd i hi, hsnd j hj]
    split <;> split <;> omega
  have hcr : ∀ i, i < 8 → chunkResult env url start size.toNat i
      = .ok (intSlice f (((chunkLayout start size.toNat).getD i (0, 0)).1)
          (((chunkLayout start size.toNat).getD i (0, 0)).2)) := by
    intro i hi
    simp only [chunkResult]
    rw [if_neg (by rw [hsnd i hi]; split <;> omega)]
    simp only [download_chunk, hserver]
    have harith : ((chunkLayout start size.toNat).getD i (0, 0)).1
        + ((((chunkLayout start size.toNat).getD i (0, 0)).2 : Nat) : Int) - 1 + 1
        - ((chunkLayout start size.toNat).getD i (0, 0)).1
        = ((((chunkLayout start size.toNat).getD i (0, 0)).2 : Nat) : Int) := by ring
    rw [harith, Int.toNat_natCast]
    rw [if_neg (by omega), if_neg (by rw [intSlice_length]; simp)]
  have hflat : ((chunkLayout start size.toNat).map (fun p => intSlice f p.1 p.2)).flatten
      = intSlice f start size.toNat := by
    unfold chunkLayout MULTITHREAD_COUNT
    rw [chunkSpecs_flatten f 8 _ _ _ 0]
    unfold chunkLayout MULTITHREAD_COUNT at hsum
    rw [hsum]
  have hmain : get_data_by_range env url start size
      = .ok (((chunkLayout start size.toNat).map (fun p => intSlice f p.1 p.2)).flatten) := by
    have hget : get_data_by_range env url start size = parallelFetch env url start size.toNat := by
      simp only [get_data_by_range]
      rw [if_neg (by simp [h1, h2]), if_pos ⟨hsz, by decide⟩]
    rw [hget]
    have hresults : (List.range MULTITHREAD_COUNT).map (chunkResult env url start size.toNat)
        = ((chunkLayout start size.toNat).map (fun p => intSlice f p.1 p.2)).map Except.ok := by
      rw [map_eq_range_getD (0, 0) (fun p => intSlice f p.1 p.2) (chunkLayout start size.toNat),
        hlen, List.map_map]
      apply List.map_congr_left
      intro i hi
      have hi8 : i < 8 := by simpa using hi
      simpa using hcr i hi8
    have hscan : scanResults ((List.range MULTITHREAD_COUNT).map
        (chunkResult env url start size.toNat))
        = .ok ((chunkLayout start size.toNat).map (fun p => intSlice f p.1 p.2)) := by
      rw [hresults]
      exact scanResults_map_ok _
    simp only [parallelFetch, hscan]
    rw [if_neg (by rw [hflat, intSlice_length]; simp)]
  exact ⟨hlen, hsnd, hsum, hfst0, hfsts, hdiff, hmain, hflat⟩

/-- Witness for C1: the scenario `fetchRange(url, 0, 250_000_000)` against a
static all-zero resource — 8 chunks, sizes `250000000 / 8` (+1 for the first
`250000000 % 8 = 0` chunks), summing exactly, concatenated in order. -/
theorem fetchRange_parallel_chunking_witness :
    (chunkLayout 0 250000000).length = 8
    ∧ (∀ i, i < 8 → ((chunkLayout 0 250000000).getD i (0, 0)).2
        = 250000000 / 8 + if i < 250000000 % 8 then 1 else 0)
    ∧ ((chunkLayout 0 250000000).map (fun p => p.2)).sum = 250000000
    ∧ ((chunkLayout 0 250000000).getD 0 (0, 0)).1 = 0
    ∧ (∀ i, i + 1 < 8 → ((chunkLayout 0 250000000).getD (i + 1) (0, 0)).1
        = ((chunkLayout 0 250000000).getD i (0, 0)).1
          + (((chunkLayout 0 250000000).getD i (0, 0)).2 : Int))
    ∧ (∀ i j, i < 8 → j < 8 → ((chunkLayout 0 250000000).getD i (0, 0)).2
        ≤ ((chunkLayout 0 250000000).getD j (0, 0)).2 + 1)
    ∧ get_data_by_range
        { parse := fun _ => ⟨"https", "huggingface.co"⟩,
          server := fun _ hdr =>
            match hdr with
            | some (a, some b) => .ok ⟨206, intSlice (fun _ => 0) a (b + 1 - a).toNat⟩
            | _ => .ok ⟨200, []⟩,
          decode := fun _ => none, head := fun _ => .error () } "u" 0 250000000
        = .ok (((chunkLayout 0 250000000).map
            (fun p => intSlice (fun _ => 0) p.1 p.2)).flatten)
    ∧ ((chunkLayout 0 250000000).map (fun p => intSlice (fun _ => 0) p.1 p.2)).flatten
        = intSlice (fun _ => 0) 0 250000000 :=
  fetchRange_parallel_chunking
    { parse := fun _ => ⟨"https", "huggingface.co"⟩,
      server := fun _ hdr =>
        match hdr with
        | some (a, some b) => .ok ⟨206, intSlice (fun _ => 0) a (b + 1 - a).toNat⟩
        | _ => .ok ⟨200, []⟩,
      decode := fun _ => none, head := fun _ => .error () }
    "u" 0 250000000 (fun _ => 0) (by decide) (by decide) (by decide) (fun a b => rfl)

/-- C2: in the parallel path, the result slots are scanned in original
chunk-index order after all slots are filled, and if slot `k` holds the first
error (all earlier chunks succeeded), the whole call raises exactly that
error — no byte sequence is returned, regardless of what any later chunk
produced. -/
theorem fetchRange_parallel_first_error
    (env : Env) (url : String) (start size : Int) (k : Nat) (e : Err)
    (cs : Nat → List Nat)
    (h1 : (env.parse url).scheme ≠ "") (h2 : (env.parse url).netloc ≠ "")
    (hsz : MULTITHREAD_THREDSHOLD ≤ size) (hk : k < 8)
    (hfail : chunkResult env url start size.toNat k = .error e)
    (hbefore : ∀ j, j < k → chunkResult env url start size.toNat j = .ok (cs j)) :
    get_data_by_range env url start size = .error e := by
  have hget : get_data_by_range env url start size = parallelFetch env url start size.toNat := by
    simp only [get_data_by_range]
    rw [if_neg (by simp [h1, h2]), if_pos ⟨hsz, by decide⟩]
  rw [hget]
  have hsplit : List.range MULTITHREAD_COUNT
      = List.range k ++ (List.range (8 - k)).map (fun x => k + x) := by
    show List.range 8 = _
    rw [← List.range_add]
    congr 1
    omega
  have h8k : 8 - k = (8 - k - 1) + 1 := by omega
  have hscan : scanResults ((List.range MULTITHREAD_COUNT).map
      (chunkResult env url start size.toNat)) = .error e := by
    rw [hsplit, List.map_append]
    have hfirst : (List.range k).map (chunkResult env url start size.toNat)
        = ((List.range k).map cs).map Except.ok := by
      rw [List.map_map]
      apply List.map_congr_left
      intro j hj
      have hjk : j < k := by simpa using hj
      simpa using hbefore j hjk
    rw [hfirst, h8k, List.range_succ_eq_map]
    simp only [List.map_cons]
    rw [Nat.add_zero, hfail]
    exact scanResults_first_error e _ _
  simp only [parallelFetch, hscan]

/-- Witness for C2: with a transport failure on every chunk request, chunk 0
is the first failing slot and the whole 250 MB parallel fetch raises exactly
its error, returning no bytes. -/
theorem fetchRange_parallel_first_error_witness :
    chunkResult
      { parse := fun _ => ⟨"https", "huggingface.co"⟩,
        server := fun _ _ => .error 7,
        decode := fun _ => none, head := fun _ => .error () } "u" 0 250000000 0
      = .error (.transport 7)
    ∧ get_data_by_range
      { parse := fun _ => ⟨"https", "huggingface.co"⟩,
        server := fun _ _ => .error 7,
        decode := fun _ => none, head := fun _ => .error () } "u" 0 250000000
      = .error (.transport 7) :=
  ⟨rfl,
   fetchRange_parallel_first_error
     { parse := fun _ => ⟨"https", "huggingface.co"⟩,
       server := fun _ _ => .error 7,
       decode := fun _ => none, head := fun _ => .error () }
     "u" 0 250000000 0 (.transport 7) (fun _ => [])
     (by decide) (by decide) (by decide) (by norm_num) rfl
     (fun j hj => absurd hj (Nat.not_lt_zero j))⟩
